import Mathlib

/-!
Verification development for the relationship-prefetch planner/executor
(`mcp-server/relprefetch.mjs`).

The planner is a JavaScript module operating on strings, JSON
configuration objects and an HTTP transport.  The shallow embedding
below models:

* JS strings as Lean `String` / `List Char` (the inputs of interest are
  ASCII; the JS regex classes `\w`, `\s` and case folding are modelled
  on their ASCII fragment, which is exact for every identifier, operator
  and keyword the module manipulates);
* the regexes used by the module (`detectRelationshipPredicates`'s
  detection regex, the per-predicate replacement regex `clauseRe`,
  and the `siteid` guard regex) as deterministic scanners.  The three
  regexes are backtracking-free: every quantifier in them is over a
  character class disjoint from the character that must follow it, so
  maximal munch coincides with the regex engine's behaviour, and the
  alternations (`=|!=|\blike\b`, double- vs single-quoted literal) have
  pairwise distinct first characters;
* `String.prototype.replace`'s replacement-string semantics (`$$`,
  `$&`, the backtick form, the quote form, `$1`, `$2`) explicitly;
* the filesystem reads of `loadRelationshipsConfig` as two
  `Option Rels` arguments (`none` models an absent, unreadable or
  malformed JSON file, exactly the cases the module downgrades to "no
  override at this layer"); the `DATA_DIR` / `MAX_PREFETCH_KEYS`
  environment variables are modelled as unset;
* the awaited transport call inside `prefetchKeys` as an oracle
  `Nat → Except String (List Member)` indexed by the sequential call
  number: `.error msg` models a thrown transport/parse failure, `.ok
  members` models a response whose normalized member collection
  (`getOslcMembers`, both transport shapes) is `members`.  The pure key
  extraction of `prefetchKeys` (member field access, `filter(Boolean)`,
  `String(x).trim()`) is embedded faithfully as `prefetchKeysPure`.

Mutation of the caller's parameter bag (`params["oslc.where"] = ...`)
is modelled by returning the updated association list.
-/

/-- JS `\w` (word character), ASCII: `[A-Za-z0-9_]`. -/
def isWordChar (c : Char) : Bool :=
  c.isUpper || c.isLower || c.isDigit || c = '_'

/-- First character of a JS identifier as used in the detection regex:
`[A-Za-z_]`. -/
def isIdentStartChar (c : Char) : Bool :=
  c.isUpper || c.isLower || c = '_'

/-- JS `\s` on its ASCII fragment: space, tab, LF, VT, FF, CR. -/
def isJsSpace (c : Char) : Bool :=
  c = ' ' || c = '\t' || c = '\n' || c = '\r' || c = '\x0b' || c = '\x0c'

/-- The single-quote character, written numerically. -/
def squote : Char := Char.ofNat 39

/-- The backtick character, written numerically. -/
def btick : Char := Char.ofNat 96

/-- JS `String.prototype.trim` on a character list (ASCII whitespace). -/
def jsTrimChars (l : List Char) : List Char :=
  (((l.dropWhile isJsSpace).reverse).dropWhile isJsSpace).reverse

/-- JS `String.prototype.trim`. -/
def jsTrim (s : String) : String :=
  String.mk (jsTrimChars s.data)

/-- JS `String.prototype.toLowerCase` (ASCII). -/
def jsToLower (s : String) : String :=
  String.mk (s.data.map Char.toLower)

/-- `escapeWhereString` on characters: `String(v).replace(/"/g, "\\\"")` —
every double quote is replaced by backslash-quote.  (The replacement
string contains no `$`, so the global replace is a plain substitution.) -/
def escapeWhereChars : List Char → List Char
  | [] => []
  | c :: rest =>
    if c = '"' then '\\' :: '"' :: escapeWhereChars rest
    else c :: escapeWhereChars rest

/-- `escapeWhereString(v)` from relprefetch.mjs. -/
def escapeWhereString (v : String) : String :=
  String.mk (escapeWhereChars v.data)

/-- `normalizeOp(opRaw)` from relprefetch.mjs. -/
def normalizeOp (opRaw : String) : String :=
  let op := jsToLower (jsTrim opRaw)
  if op = "=" then "="
  else if op = "!=" then "!="
  else if op = "like" then "like"
  else "="

/-- `buildOrBlock(rootJoinField, keys)` from relprefetch.mjs:
`(${keys.map(k => rootJoinField="escaped k").join(" or ")})`. -/
def buildOrBlock (rootJoinField : String) (keys : List String) : String :=
  "(" ++ String.intercalate " or "
    (keys.map (fun k => rootJoinField ++ "=\"" ++ escapeWhereString k ++ "\"")) ++ ")"

/-- A JS value as it can appear in a member object field of an OSLC
response body. -/
inductive JVal where
  | str (s : String)
  | num (n : Int)
  | bool (b : Bool)
  | null
  | undefined
deriving Repr, DecidableEq

/-- JS truthiness of a `JVal` (`filter(Boolean)`). -/
def JVal.truthy : JVal → Bool
  | .str s => s ≠ ""
  | .num n => n ≠ 0
  | .bool b => b
  | .null => false
  | .undefined => false

/-- JS `String(x)` of a `JVal`. -/
def JVal.toStr : JVal → String
  | .str s => s
  | .num n => toString n
  | .bool b => cond b "true" "false"
  | .null => "null"
  | .undefined => "undefined"

/-- One member object of an OSLC response collection, viewed as a
field-to-value association. -/
abbrev Member := List (String × JVal)

/-- `it?.[relatedKeyField]` — field access, `undefined` when absent. -/
def getField (m : Member) (f : String) : JVal :=
  match m.find? (fun p => p.1 == f) with
  | some p => p.2
  | none => .undefined

/-- The pure key extraction of `prefetchKeys` (relprefetch.mjs lines
476-478): `members.map(it => it?.[relatedKeyField]).filter(Boolean)
.map(x => String(x).trim())`. -/
def prefetchKeysPure (members : List Member) (relatedKeyField : String) : List String :=
  ((members.map (fun it => getField it relatedKeyField)).filter JVal.truthy).map
    (fun x => jsTrim x.toStr)

/-- Last element of a list, with a fallback (used to track the character
preceding a regex position). -/
def lastOrElse (l : List Char) (d : Option Char) : Option Char :=
  match l.getLast? with
  | some c => some c
  | none => d

/-- JS regex `\b` between a previous character (`none` = string start or
end) and a next one: word-ness differs on the two sides. -/
def atBoundary (prev next : Option Char) : Bool :=
  (match prev with | some c => isWordChar c | none => false)
    != (match next with | some c => isWordChar c | none => false)

/-- Maximal-munch match of `[A-Za-z_][A-Za-z0-9_]*` at the head of the
input; returns the identifier and the remaining input. -/
def takeIdentChars : List Char → Option (List Char × List Char)
  | [] => none
  | c :: rest =>
    if isIdentStartChar c then
      some (c :: rest.takeWhile isWordChar, rest.dropWhile isWordChar)
    else none

/-- Match of the operator alternation `(=|!=|\blike\b)` (case-insensitive)
at the head of the input.  `prev` is the character immediately before the
current position (for the `\b` before `like`).  The three alternatives
have pairwise distinct first characters, so first-match order is the
regex engine's order. -/
def matchOpAt (prev : Option Char) (s : List Char) : Option (List Char × List Char) :=
  match s with
  | '=' :: rest => some (['='], rest)
  | '!' :: '=' :: rest => some (['!', '='], rest)
  | a :: b :: c :: d :: rest =>
    if (a.toLower = 'l' && b.toLower = 'i' && c.toLower = 'k' && d.toLower = 'e')
        && atBoundary prev (some a) && atBoundary (some d) rest.head?
    then some ([a, b, c, d], rest)
    else none
  | _ => none

/-- Match of the literal alternation `("([^"]*)"|'([^']*)')` at the head
of the input; returns (full literal with quotes, inner value, rest). -/
def matchLiteralAt (s : List Char) : Option (List Char × List Char × List Char) :=
  match s with
  | '"' :: rest =>
    let inner := rest.takeWhile (fun c => c != '"')
    (match rest.dropWhile (fun c => c != '"') with
     | '"' :: rest2 => some (('"' :: inner) ++ ['"'], inner, rest2)
     | _ => none)
  | c :: rest =>
    if c = squote then
      let inner := rest.takeWhile (fun x => x != squote)
      (match rest.dropWhile (fun x => x != squote) with
       | q :: rest2 => some ((c :: inner) ++ [q], inner, rest2)
       | _ => none)
    else none
  | [] => none

/-- A predicate extracted by `detectRelationshipPredicates`:
`{ rel, field, op, value }`. -/
structure RelPred where
  rel : String
  field : String
  op : String
  value : String
deriving Repr, DecidableEq

/-- Match of the detection regex
`\b([A-Za-z_][A-Za-z0-9_]*)\s*\.\s*([A-Za-z0-9_]...)\s*(=|!=|\blike\b)\s*("([^"]*)"|'([^']*)')`
at one position.  Returns the predicate (with the coercions the source
applies: `String(m[i]).trim()`, `normalizeOp`), the full matched text and
the rest of the input. -/
def matchClauseGenericAt (prev : Option Char) (s : List Char) :
    Option (RelPred × List Char × List Char) :=
  if !(atBoundary prev s.head?) then none else
  match takeIdentChars s with
  | none => none
  | some (relM, s1) =>
    let sp1 := s1.takeWhile isJsSpace
    let s2 := s1.dropWhile isJsSpace
    match s2 with
    | '.' :: s3 =>
      let sp2 := s3.takeWhile isJsSpace
      let s4 := s3.dropWhile isJsSpace
      (match takeIdentChars s4 with
       | none => none
       | some (fieldM, s5) =>
         let sp3 := s5.takeWhile isJsSpace
         let s6 := s5.dropWhile isJsSpace
         let prevOp := lastOrElse sp3 (lastOrElse fieldM (some '.'))
         match matchOpAt prevOp s6 with
         | none => none
         | some (opM, s7) =>
           let sp4 := s7.takeWhile isJsSpace
           let s8 := s7.dropWhile isJsSpace
           match matchLiteralAt s8 with
           | none => none
           | some (litM, inner, s9) =>
             some ({ rel := jsTrim (String.mk relM),
                     field := jsTrim (String.mk fieldM),
                     op := normalizeOp (String.mk opM),
                     value := String.mk inner },
                   relM ++ sp1 ++ ('.' :: sp2) ++ fieldM ++ sp3 ++ opM ++ sp4 ++ litM,
                   s9))
    | _ => none

/-- The `re.exec` loop of `detectRelationshipPredicates`: scan left to
right, emit each (non-overlapping, leftmost) match and continue after
it.  The fuel argument only bounds the recursion; `length + 1` is enough
because every step consumes at least one character. -/
def detectAux : Nat → Option Char → List Char → List RelPred → List RelPred
  | 0, _, _, acc => acc.reverse
  | _ + 1, _, [], acc => acc.reverse
  | fuel + 1, prev, c :: rest, acc =>
    match matchClauseGenericAt prev (c :: rest) with
    | some (p, matched, after) => detectAux fuel (lastOrElse matched (some c)) after (p :: acc)
    | none => detectAux fuel (some c) rest acc

/-- `detectRelationshipPredicates(where)` from relprefetch.mjs. -/
def detectRelationshipPredicates (w : String) : List RelPred :=
  detectAux (w.data.length + 1) none w.data []

/-- Match of the per-predicate replacement regex `clauseRe` =
`` \b${relName}\s*\.\s*${p.field}\s*(=|!=|\blike\b)\s*("[^"]*"|'[^']*') ``
(flag `i`) at one position.  `rel` and `field` are matched as literal
text, case-insensitively.  Returns (matched text, group 1, group 2,
rest). -/
def matchCI : List Char → List Char → Option (List Char × List Char)
  | [], s => some ([], s)
  | _ :: _, [] => none
  | p :: ps, c :: cs =>
    if c.toLower = p.toLower then
      match matchCI ps cs with
      | some (m, r) => some (c :: m, r)
      | none => none
    else none

def matchClauseSpecificAt (rel field : List Char) (prev : Option Char) (s : List Char) :
    Option (List Char × List Char × List Char × List Char) :=
  if !(atBoundary prev s.head?) then none else
  match matchCI rel s with
  | none => none
  | some (relM, s1) =>
    let sp1 := s1.takeWhile isJsSpace
    let s2 := s1.dropWhile isJsSpace
    match s2 with
    | '.' :: s3 =>
      let sp2 := s3.takeWhile isJsSpace
      let s4 := s3.dropWhile isJsSpace
      (match matchCI field s4 with
       | none => none
       | some (fieldM, s5) =>
         let sp3 := s5.takeWhile isJsSpace
         let s6 := s5.dropWhile isJsSpace
         let prevOp := lastOrElse sp3 (lastOrElse fieldM (some '.'))
         match matchOpAt prevOp s6 with
         | none => none
         | some (opM, s7) =>
           let sp4 := s7.takeWhile isJsSpace
           let s8 := s7.dropWhile isJsSpace
           match matchLiteralAt s8 with
           | none => none
           | some (litM, _, s9) =>
             some (relM ++ sp1 ++ ('.' :: sp2) ++ fieldM ++ sp3 ++ opM ++ sp4 ++ litM,
                   opM, litM, s9))
    | _ => none

/-- A located first match of `clauseRe` in a string. -/
structure FoundMatch where
  before : List Char
  matched : List Char
  g1 : List Char
  g2 : List Char
  rest : List Char
deriving Repr, DecidableEq

def findClauseAux (rel field : List Char) (prev : Option Char) (beforeRev : List Char) :
    List Char → Option FoundMatch
  | [] => none
  | c :: rest =>
    match matchClauseSpecificAt rel field prev (c :: rest) with
    | some (m, g1, g2, after) =>
      some { before := beforeRev.reverse, matched := m, g1 := g1, g2 := g2, rest := after }
    | none => findClauseAux rel field (some c) (c :: beforeRev) rest

/-- Leftmost match of `clauseRe` in a string (the match replaced by
`String.prototype.replace` without the `g` flag). -/
def findClause (rel field : List Char) (s : List Char) : Option FoundMatch :=
  findClauseAux rel field none [] s

/-- JS `String.prototype.replace` replacement-string processing: `$$`,
`$&`, dollar-backtick (text before the match), dollar-quote (text after
the match), `$1`, `$2` (the two capture groups of `clauseRe`); any other
`$` sequence is literal. -/
def jsSubstAux (before matched g1 g2 after : List Char) : List Char → List Char
  | [] => []
  | c :: rest =>
    if c = '$' then
      match rest with
      | [] => ['$']
      | c2 :: rest2 =>
        if c2 = '$' then '$' :: jsSubstAux before matched g1 g2 after rest2
        else if c2 = '&' then matched ++ jsSubstAux before matched g1 g2 after rest2
        else if c2 = btick then before ++ jsSubstAux before matched g1 g2 after rest2
        else if c2 = squote then after ++ jsSubstAux before matched g1 g2 after rest2
        else if c2 = '1' then g1 ++ jsSubstAux before matched g1 g2 after rest2
        else if c2 = '2' then g2 ++ jsSubstAux before matched g1 g2 after rest2
        else '$' :: c2 :: jsSubstAux before matched g1 g2 after rest2
    else c :: jsSubstAux before matched g1 g2 after rest

/-- `mutatedWhere.replace(clauseRe, replacement)`: replace the first
match of `clauseRe` (built from `relName` and `p.field`), or leave the
string unchanged when there is none. -/
def replaceFirstClause (rel field replacement s : String) : String :=
  match findClause rel.data field.data s.data with
  | some fm =>
    String.mk (fm.before ++ jsSubstAux fm.before fm.matched fm.g1 fm.g2 fm.rest replacement.data
      ++ fm.rest)
  | none => s

/-- Tail of the `siteid` guard regex after its `(^|\W)` anchor:
`siteid\s*(=|!=|\bin\b)`, case-insensitive.  The boundary before `in`
compares the last consumed character (a space, or the `d` of `siteid`
when `\s*` is empty) with `i`. -/
def siteidOpMatch (prevIsWord : Bool) (l : List Char) : Bool :=
  match l with
  | '=' :: _ => true
  | '!' :: '=' :: _ => true
  | a :: b :: rest =>
    !prevIsWord && (a.toLower = 'i') && (b.toLower = 'n')
      && (match rest with | [] => true | c :: _ => !isWordChar c)
  | _ => false

def siteidFromHere (l : List Char) : Bool :=
  match matchCI "siteid".data l with
  | some (_, rest) =>
    let sp := rest.takeWhile isJsSpace
    let rest2 := rest.dropWhile isJsSpace
    siteidOpMatch sp.isEmpty rest2
  | none => false

def siteidScanAux (allowed : Bool) (l : List Char) : Bool :=
  if allowed && siteidFromHere l then true
  else
    match l with
    | [] => false
    | c :: rest => siteidScanAux (!isWordChar c) rest

/-- The guard `/(^|\W)siteid\s*(=|!=|\bin\b)/i.test(relWhere)` of
`applyRelationshipPrefetch` (relprefetch.mjs line 529): a start position
is the string start or follows a non-word character. -/
def siteidRegexTest (s : String) : Bool :=
  siteidScanAux true s.data

/-- One relationship configuration entry.  JSON fields are modelled
after the coercions the module applies (`String(x || "")`,
`Number(x || default)`): an absent or falsy field is the empty string /
zero. -/
structure RelCfg where
  relatedOs : String := ""
  rootJoinField : String := ""
  relatedKeyField : String := ""
  relatedSiteField : String := ""
  maxKeys : Nat := 0
  pageSize : Nat := 0
  select : String := ""
deriving Repr, DecidableEq

/-- The relation-alias → entry mapping of one root resource. -/
abbrev RelMap := List (String × RelCfg)

/-- The `relationships` object of one configuration layer:
root resource → relation-alias mapping. -/
abbrev Rels := List (String × RelMap)

/-- JS object property lookup on an association list. -/
def lookupA {α : Type} (m : List (String × α)) (k : String) : Option α :=
  match m.find? (fun p => p.1 == k) with
  | some p => some p.2
  | none => none

/-- JS object spread `{ ...a, ...b }` restricted to lookup behaviour:
keys of `b` override keys of `a` wholesale. -/
def mergeObj {α : Type} (a b : List (String × α)) : List (String × α) :=
  a.filter (fun p => (lookupA b p.1).isNone) ++ b

/-- The built-in defaults of `loadRelationshipsConfig`
(relprefetch.mjs lines 357-418). -/
def builtInRelationships : Rels :=
  [("mxapiwo",
     [("asset",
       { relatedOs := "mxapiasset", rootJoinField := "assetnum",
         relatedKeyField := "assetnum", relatedSiteField := "siteid",
         maxKeys := 50, pageSize := 200, select := "assetnum" }),
      ("location",
       { relatedOs := "mxapilocations", rootJoinField := "location",
         relatedKeyField := "location", relatedSiteField := "siteid",
         maxKeys := 50, pageSize := 200, select := "location" })]),
   ("mxapisr",
     [("asset",
       { relatedOs := "mxapiasset", rootJoinField := "assetnum",
         relatedKeyField := "assetnum", relatedSiteField := "siteid",
         maxKeys := 50, pageSize := 200, select := "assetnum" })]),
   ("mxapipo",
     [("vendor",
       { relatedOs := "mxapivendor", rootJoinField := "vendor",
         relatedKeyField := "vendor", relatedSiteField := "siteid",
         maxKeys := 50, pageSize := 200, select := "vendor" })]),
   ("mxapipr",
     [("vendor",
       { relatedOs := "mxapivendor", rootJoinField := "vendor",
         relatedKeyField := "vendor", relatedSiteField := "siteid",
         maxKeys := 50, pageSize := 200, select := "vendor" })])]

/-- `loadRelationshipsConfig` (relprefetch.mjs lines 348-444), with the
two filesystem reads abstracted: `defaultsFile` / `tenantFile` is `none`
when the file is absent, unreadable, malformed JSON, or its
`relationships` member is not an object (all downgraded to "no override
at this layer" by the source).  The merge is
`out.relationships = { ...out.relationships, ...layer.relationships }`
for each present layer, built-in first, then defaults, then tenant. -/
def loadRelationshipsConfig (defaultsFile tenantFile : Option Rels) : Rels :=
  let out := builtInRelationships
  let out := match defaultsFile with
    | some d => mergeObj out d
    | none => out
  match tenantFile with
  | some t => mergeObj out t
  | none => out

/-- An entry of `plan.steps`.  The source pushes plain JS objects whose
field sets depend on `kind`; fields a given kind does not set are
modelled by their defaults. -/
structure Step where
  kind : String
  relationship : String := ""
  relatedOs : String := ""
  relatedWhere : String := ""
  select : String := ""
  rootJoinField : String := ""
  relatedKeyField : String := ""
  maxKeys : Nat := 0
  keysReturned : Nat := 0
  keysUsed : Nat := 0
  replacedWith : String := ""
  note : String := ""
deriving Repr, DecidableEq

/-- An entry of `plan.errors`. -/
structure ErrEntry where
  relationship : String := ""
  message : String
deriving Repr, DecidableEq

/-- The plan object returned by `applyRelationshipPrefetch`. -/
structure Plan where
  mode : String
  detected : List RelPred
  steps : List Step
  truncated : Bool
  errors : List ErrEntry
deriving Repr, DecidableEq

/-- The mutable state threaded through the `for (const p of preds)`
loop: the evolving filter string, the plan fields the loop writes, and
the sequential index of the next transport call (for the oracle). -/
structure LoopState where
  mutatedWhere : String
  mode : String
  steps : List Step
  truncated : Bool
  errors : List ErrEntry
  callIdx : Nat
deriving Repr, DecidableEq

/-- `const op = p.op === "like" ? "like" : (p.op === "!=" ? "!=" : "=")`. -/
def opOf (p : RelPred) : String :=
  if p.op = "like" then "like" else if p.op = "!=" then "!=" else "="

/-- The base related-resource filter ``${p.field} ${op} "${val}"``. -/
def relWhereBase (p : RelPred) : String :=
  p.field ++ " " ++ opOf p ++ " \"" ++ escapeWhereString p.value ++ "\""

/-- The related-resource filter after the optional site-scoping clause
(relprefetch.mjs lines 526-532): prefixed with
``relatedSiteField="escaped defaultSite" and `` when the caller supplied
a default site, a site field is configured, and the textual `siteid`
guard does not fire on the base filter. -/
def relWhereFor (p : RelPred) (relatedSiteField defaultSite : String) : String :=
  let rw := relWhereBase p
  if (defaultSite != "") && (relatedSiteField != "") && !(siteidRegexTest rw) then
    relatedSiteField ++ "=\"" ++ escapeWhereString defaultSite ++ "\" and " ++ rw
  else rw

/-- The `kind: "prefetch"` step pushed before the transport call
(relprefetch.mjs lines 535-544); `relatedSiteField`, `select`, `maxKeys`
are the trimmed/defaulted values computed by the loop body. -/
def prefetchStepFor (p : RelPred) (relatedOs relatedWhere select rootJoinField
    relatedKeyField : String) (maxKeys : Nat) : Step :=
  { kind := "prefetch", relationship := p.rel, relatedOs := relatedOs,
    relatedWhere := relatedWhere, select := select, rootJoinField := rootJoinField,
    relatedKeyField := relatedKeyField, maxKeys := maxKeys }

/-- `const relatedOs = String(relCfg.relatedOs || "").trim()`. -/
def effRelatedOs (c : RelCfg) : String := jsTrim c.relatedOs

/-- `const rootJoinField = String(relCfg.rootJoinField || "").trim()`. -/
def effRootJoinField (c : RelCfg) : String := jsTrim c.rootJoinField

/-- `const relatedKeyField = String(relCfg.relatedKeyField || "").trim()`. -/
def effRelatedKeyField (c : RelCfg) : String := jsTrim c.relatedKeyField

/-- `const relatedSiteField = String(relCfg.relatedSiteField || "").trim()`. -/
def effRelatedSiteField (c : RelCfg) : String := jsTrim c.relatedSiteField

/-- `const select = String(relCfg.select || "").trim() || relatedKeyField`. -/
def effSelect (c : RelCfg) : String :=
  if jsTrim c.select = "" then effRelatedKeyField c else jsTrim c.select

/-- `const maxKeys = Number(relCfg.maxKeys || process.env.MAX_PREFETCH_KEYS
|| 50)` with the environment variable modelled as unset. -/
def effMaxKeys (c : RelCfg) : Nat :=
  if c.maxKeys ≠ 0 then c.maxKeys else 50

/-- `keys = (out.keys || []).slice(0, Math.max(0, maxKeys))`: the key
list actually used for the rewrite. -/
def usedKeys (members : List Member) (c : RelCfg) : List String :=
  (prefetchKeysPure members (effRelatedKeyField c)).take (Nat.max 0 (effMaxKeys c))

/-- The body of `for (const p of preds) { ... }` in
`applyRelationshipPrefetch` (relprefetch.mjs lines 507-591).
`relsForOs` is `cfg?.relationships?.[os...]`, `oracle` the transport
(see the module comment). -/
def processPred (relsForOs : Option RelMap) (defaultSite : String)
    (oracle : Nat → Except String (List Member)) (st : LoopState) (p : RelPred) :
    LoopState :=
  match relsForOs.bind (fun m => lookupA m p.rel) with
  | none => st
  | some relCfg =>
    if (effRelatedOs relCfg == "") || (effRootJoinField relCfg == "")
        || (effRelatedKeyField relCfg == "") then st
    else
      let relWhere := relWhereFor p (effRelatedSiteField relCfg) defaultSite
      let st := { st with mode := "prefetch",
                          steps := st.steps ++ [prefetchStepFor p (effRelatedOs relCfg) relWhere
                            (effSelect relCfg) (effRootJoinField relCfg)
                            (effRelatedKeyField relCfg) (effMaxKeys relCfg)] }
      match oracle st.callIdx with
      | .error msg =>
        { st with errors := st.errors ++ [{ relationship := p.rel, message := msg }],
                  callIdx := st.callIdx + 1 }
      | .ok members =>
        let outKeys := prefetchKeysPure members (effRelatedKeyField relCfg)
        let keys := usedKeys members relCfg
        let st := if outKeys.length > keys.length then { st with truncated := true } else st
        let resultStep : Step :=
          { kind := "prefetch_result", relationship := p.rel,
            keysReturned := outKeys.length, keysUsed := keys.length }
        let st := { st with steps := st.steps ++ [resultStep], callIdx := st.callIdx + 1 }
        if keys.isEmpty then
          let falseClause := effRootJoinField relCfg ++ "=\"__NO_MATCH__\""
          let rwStep : Step :=
            { kind := "rewrite", relationship := p.rel,
              replacedWith := falseClause, note := "no related matches" }
          { st with
            mutatedWhere := replaceFirstClause p.rel p.field falseClause st.mutatedWhere,
            steps := st.steps ++ [rwStep] }
        else
          let orBlock := buildOrBlock (effRootJoinField relCfg) keys
          let rwStep : Step :=
            { kind := "rewrite", relationship := p.rel, replacedWith := orBlock }
          { st with
            mutatedWhere := replaceFirstClause p.rel p.field orBlock st.mutatedWhere,
            steps := st.steps ++ [rwStep] }

/-- JS property assignment `params[k] = v` on an association list:
overwrite in place when present, append otherwise. -/
def setA (m : List (String × String)) (k v : String) : List (String × String) :=
  if (lookupA m k).isSome then
    m.map (fun p => if p.1 == k then (k, v) else p)
  else m ++ [(k, v)]

/-- The result of `applyRelationshipPrefetch`: the returned plan and the
caller's parameter bag after the in-place mutation. -/
structure PrefetchResult where
  plan : Plan
  params : List (String × String)
deriving Repr, DecidableEq

/-- `applyRelationshipPrefetch` (relprefetch.mjs lines 481-603).  The
pure model is total, so the outer `catch` (plan mode `error`) is
unreachable and does not appear. -/
def applyRelationshipPrefetch (os : String) (params : List (String × String))
    (defaultSite : String) (defaultsFile tenantFile : Option Rels)
    (oracle : Nat → Except String (List Member)) : PrefetchResult :=
  let plan0 : Plan := { mode := "none", detected := [], steps := [],
                        truncated := false, errors := [] }
  let whereIn := (lookupA params "oslc.where").getD ""
  if whereIn = "" then { plan := plan0, params := params }
  else
    let cfg := loadRelationshipsConfig defaultsFile tenantFile
    let relsForOs := (lookupA cfg (jsToLower os)).orElse (fun _ => lookupA cfg os)
    let preds := detectRelationshipPredicates whereIn
    if preds.isEmpty then { plan := plan0, params := params }
    else
      let st0 : LoopState := { mutatedWhere := whereIn, mode := "none", steps := [],
                               truncated := false, errors := [], callIdx := 0 }
      let stF := List.foldl (processPred relsForOs defaultSite oracle) st0 preds
      let plan : Plan := { mode := stF.mode, detected := preds, steps := stF.steps,
                           truncated := stF.truncated, errors := stF.errors }
      let params2 := if stF.mutatedWhere ≠ whereIn then setA params "oslc.where" stF.mutatedWhere
                     else params
      { plan := plan, params := params2 }

/-- Every double quote in the list is immediately preceded by a
backslash (`prev` is the character just before the list in its embedding
context).  This is the syntactic-validity notion of the specification:
an embedded quote is escaped rather than terminating the quoted
literal. -/
def quoteEscapedOk : Option Char → List Char → Bool
  | _, [] => true
  | prev, c :: rest => ((c != '"') || (prev == some '\\')) && quoteEscapedOk (some c) rest

/-- No dollar character in the string.  `String.prototype.replace`
interprets `$` sequences in its replacement string (see `jsSubstAux`),
so a replacement built from dollar-free pieces is inserted verbatim
while one containing `$` may not be. -/
def noDollar (s : String) : Bool := s.data.all (fun c => c != '$')

/-- C1 counterexample input: a tenant layer that overrides `mxapiwo` with
only an `asset` relation. -/
def c1TenantLayer : Rels :=
  [("mxapiwo",
    [("asset",
      { relatedOs := "mxapiasset", rootJoinField := "assetnum", relatedKeyField := "assetnum",
        maxKeys := 10 })])]

/-- C2 counterexample input: one configured predicate whose transport
call throws. -/
def c2Run : PrefetchResult :=
  applyRelationshipPrefetch "mxapiwo" [("oslc.where", "asset.assettype=\"SENSOR\"")] "" none none
    (fun _ => Except.error "boom")

/-- C5 failing input: the unconfigured `vendor` clause's double-quoted
literal embeds a single-quoted `asset.q` clause pattern, so the `asset`
predicate's replacement regex matches inside it. -/
def c5Run : PrefetchResult :=
  applyRelationshipPrefetch "mxapiwo"
    [("oslc.where", "vendor.y=\"asset.q='h'\" and asset.q=\"z\"")] "" none none
    (fun _ => Except.ok [[("assetnum", JVal.str "K")]])

/-- C9 failing input: same shape as the C5 input; the real `asset.n`
clause survives the rewrite. -/
def c9Run : PrefetchResult :=
  applyRelationshipPrefetch "mxapiwo"
    [("oslc.where", "vendor.u=\"asset.n='g'\" and asset.n=\"w\"")] "" none none
    (fun _ => Except.ok [[("assetnum", JVal.str "J")]])

/-- Witness fixtures: a built-in-style `asset` entry (with `maxKeys` 2),
a one-predicate loop state, the detected predicate, and the located
clause match. -/
def wAssetCfg : RelCfg :=
  { relatedOs := "mxapiasset", rootJoinField := "assetnum", relatedKeyField := "assetnum",
    relatedSiteField := "siteid", maxKeys := 2, pageSize := 200, select := "assetnum" }

def wSt : LoopState :=
  { mutatedWhere := "asset.assettype=\"SENSOR\"", mode := "none", steps := [],
    truncated := false, errors := [], callIdx := 0 }

def wP : RelPred := { rel := "asset", field := "assettype", op := "=", value := "SENSOR" }

def wFm : FoundMatch :=
  { before := [], matched := "asset.assettype=\"SENSOR\"".data, g1 := ['='],
    g2 := "\"SENSOR\"".data, rest := [] }

theorem orElse_none_right {α : Type} (o : Option α) :
    (Option.orElse o (fun _ => none)) = o := by
  cases o <;> rfl

theorem orElse_none_left {α : Type} (f : Unit → Option α) :
    (Option.orElse none f) = f () := rfl

theorem orElse_some_left {α : Type} (x : α) (f : Unit → Option α) :
    (Option.orElse (some x) f) = some x := rfl

theorem jsSubstAux_no_dollar (before matched g1 g2 after : List Char) :
    ∀ l : List Char, l.all (fun c => c != '$') = true →
      jsSubstAux before matched g1 g2 after l = l := by
  intro l
  induction l with
  | nil => intro _; rfl
  | cons c rest ih =>
    intro h
    rw [List.all_cons, Bool.and_eq_true] at h
    have hc : c ≠ '$' := by simpa using h.1
    unfold jsSubstAux
    rw [if_neg hc, ih h.2]

theorem replaceFirstClause_of_found (rel field repl s : String) (fm : FoundMatch)
    (hf : findClause rel.data field.data s.data = some fm)
    (hd : repl.data.all (fun c => c != '$') = true) :
    replaceFirstClause rel field repl s = String.mk (fm.before ++ repl.data ++ fm.rest) := by
  unfold replaceFirstClause
  rw [hf]
  show String.mk (fm.before ++ jsSubstAux fm.before fm.matched fm.g1 fm.g2 fm.rest repl.data
    ++ fm.rest) = _
  rw [jsSubstAux_no_dollar fm.before fm.matched fm.g1 fm.g2 fm.rest repl.data hd]

theorem lookupA_cons {α : Type} (p : String × α) (l : List (String × α)) (k : String) :
    lookupA (p :: l) k = if p.1 == k then some p.2 else lookupA l k := by
  by_cases h : p.1 == k
  · simp [lookupA, List.find?_cons_of_pos, h]
  · simp only [Bool.not_eq_true] at h
    simp [lookupA, List.find?_cons_of_neg, h]

theorem lookupA_append {α : Type} (a b : List (String × α)) (k : String) :
    lookupA (a ++ b) k = ((lookupA a k).orElse (fun _ => lookupA b k)) := by
  induction a with
  | nil =>
    rw [List.nil_append]
    have h0 : lookupA ([] : List (String × α)) k = none := rfl
    rw [h0, orElse_none_left]
  | cons p a ih =>
    rw [List.cons_append, lookupA_cons, lookupA_cons]
    by_cases h : p.1 == k
    · rw [if_pos h, if_pos h, orElse_some_left]
    · rw [if_neg h, if_neg h, ih]

theorem lookupA_mergeObj {α : Type} (a b : List (String × α)) (k : String) :
    lookupA (mergeObj a b) k = ((lookupA b k).orElse (fun _ => lookupA a k)) := by
  unfold mergeObj
  induction a with
  | nil =>
    rw [List.filter_nil, List.nil_append]
    have h0 : lookupA ([] : List (String × α)) k = none := rfl
    rw [h0, orElse_none_right]
  | cons p a ih =>
    rw [List.filter_cons]
    by_cases hq : (lookupA b p.1).isNone
    · rw [if_pos (by simpa using hq), List.cons_append, lookupA_cons]
      by_cases hk : p.1 == k
      · have hk2 : p.1 = k := by simpa using hk
        have hbnone : lookupA b k = none := by
          rw [← hk2]; exact Option.isNone_iff_eq_none.mp hq
        rw [if_pos hk, hbnone, orElse_none_left, lookupA_cons, if_pos hk]
      · rw [if_neg (by simpa using (Bool.not_eq_true _).mp hk), ih, lookupA_cons,
          if_neg (by simpa using (Bool.not_eq_true _).mp hk)]
    · rw [if_neg (by simpa using hq), ih, lookupA_cons]
      by_cases hk : p.1 == k
      · have hk2 : p.1 = k := by simpa using hk
        have hbsome : ∃ v, lookupA b k = some v := by
          rw [← hk2]
          cases hx : lookupA b p.1
          · rw [hx] at hq; simp at hq
          · exact ⟨_, rfl⟩
        obtain ⟨v, hv⟩ := hbsome
        rw [hv, orElse_some_left, orElse_some_left]
      · rw [if_neg (by simpa using (Bool.not_eq_true _).mp hk)]

theorem lookupA_mapset_ne (l : List (String × String)) (k v k2 : String) (h : k2 ≠ k) :
    lookupA (l.map (fun p => if p.1 == k then (k, v) else p)) k2 = lookupA l k2 := by
  induction l with
  | nil => rfl
  | cons p l ih =>
    simp only [List.map_cons]
    by_cases hp : p.1 == k
    · rw [if_pos hp, lookupA_cons, lookupA_cons]
      have hk2 : ((k, v).1 == k2) = false := by
        simp only [beq_eq_false_iff_ne, ne_eq]
        intro hkk; exact h hkk.symm
      have hp2 : p.1 = k := by simpa using hp
      have hpk : (p.1 == k2) = false := by
        simp only [beq_eq_false_iff_ne, ne_eq, hp2]
        intro hkk; exact h hkk.symm
      rw [hk2, hpk]
      simp only [Bool.false_eq_true, if_false]
      exact ih
    · rw [if_neg hp, lookupA_cons, lookupA_cons]
      by_cases hpk : p.1 == k2
      · rw [if_pos hpk, if_pos hpk]
      · rw [if_neg hpk, if_neg hpk]
        exact ih

theorem lookupA_setA_ne (m : List (String × String)) (k v k2 : String) (h : k2 ≠ k) :
    lookupA (setA m k v) k2 = lookupA m k2 := by
  unfold setA
  by_cases hs : (lookupA m k).isSome
  · rw [if_pos hs]
    exact lookupA_mapset_ne m k v k2 h
  · rw [if_neg hs, lookupA_append]
    have h1 : lookupA [(k, v)] k2 = none := by
      rw [lookupA_cons]
      have : ((k, v).1 == k2) = false := by
        simp only [beq_eq_false_iff_ne, ne_eq]
        intro hkk; exact h hkk.symm
      rw [this, if_neg (by simp)]
      rfl
    rw [h1, orElse_none_right]

theorem processPred_err_eq (relsForOs : Option RelMap) (defaultSite : String)
    (oracle : Nat → Except String (List Member)) (st : LoopState) (p : RelPred)
    (relCfg : RelCfg) (msg : String)
    (hc : relsForOs.bind (fun m => lookupA m p.rel) = some relCfg)
    (h1 : (effRelatedOs relCfg == "") = false)
    (h2 : (effRootJoinField relCfg == "") = false)
    (h3 : (effRelatedKeyField relCfg == "") = false)
    (he : oracle st.callIdx = Except.error msg) :
    processPred relsForOs defaultSite oracle st p =
      { st with mode := "prefetch",
                steps := st.steps ++ [prefetchStepFor p (effRelatedOs relCfg)
                  (relWhereFor p (effRelatedSiteField relCfg) defaultSite) (effSelect relCfg)
                  (effRootJoinField relCfg) (effRelatedKeyField relCfg) (effMaxKeys relCfg)],
                errors := st.errors ++ [{ relationship := p.rel, message := msg }],
                callIdx := st.callIdx + 1 } := by
  unfold processPred
  rw [hc]
  simp only [h1, h2, h3, Bool.or_self, Bool.or_false, Bool.false_or, Bool.false_eq_true,
    if_false, he]

theorem processPred_ok_nonempty_spec (relsForOs : Option RelMap) (defaultSite : String)
    (oracle : Nat → Except String (List Member)) (st : LoopState) (p : RelPred)
    (relCfg : RelCfg) (members : List Member)
    (hc : relsForOs.bind (fun m => lookupA m p.rel) = some relCfg)
    (h1 : (effRelatedOs relCfg == "") = false)
    (h2 : (effRootJoinField relCfg == "") = false)
    (h3 : (effRelatedKeyField relCfg == "") = false)
    (ho : oracle st.callIdx = Except.ok members)
    (hne : (usedKeys members relCfg).isEmpty = false) :
    (processPred relsForOs defaultSite oracle st p).mutatedWhere =
      replaceFirstClause p.rel p.field
        (buildOrBlock (effRootJoinField relCfg) (usedKeys members relCfg)) st.mutatedWhere
    ∧ (processPred relsForOs defaultSite oracle st p).truncated =
      (if (prefetchKeysPure members (effRelatedKeyField relCfg)).length >
          (usedKeys members relCfg).length then true else st.truncated)
    ∧ (processPred relsForOs defaultSite oracle st p).steps =
      (st.steps ++ [prefetchStepFor p (effRelatedOs relCfg)
          (relWhereFor p (effRelatedSiteField relCfg) defaultSite) (effSelect relCfg)
          (effRootJoinField relCfg) (effRelatedKeyField relCfg) (effMaxKeys relCfg)])
        ++ [{ kind := "prefetch_result", relationship := p.rel,
              keysReturned := (prefetchKeysPure members (effRelatedKeyField relCfg)).length,
              keysUsed := (usedKeys members relCfg).length }]
        ++ [{ kind := "rewrite", relationship := p.rel,
              replacedWith :=
                buildOrBlock (effRootJoinField relCfg) (usedKeys members relCfg) }] := by
  unfold processPred
  rw [hc]
  simp only [h1, h2, h3, Bool.or_self, Bool.or_false, Bool.false_or, Bool.false_eq_true,
    if_false, ho, hne]
  refine ⟨?_, ?_, ?_⟩
  · split <;> rfl
  · split <;> rfl
  · split <;> rfl

theorem processPred_ok_empty_spec (relsForOs : Option RelMap) (defaultSite : String)
    (oracle : Nat → Except String (List Member)) (st : LoopState) (p : RelPred)
    (relCfg : RelCfg) (members : List Member)
    (hc : relsForOs.bind (fun m => lookupA m p.rel) = some relCfg)
    (h1 : (effRelatedOs relCfg == "") = false)
    (h2 : (effRootJoinField relCfg == "") = false)
    (h3 : (effRelatedKeyField relCfg == "") = false)
    (ho : oracle st.callIdx = Except.ok members)
    (hem : (usedKeys members relCfg).isEmpty = true) :
    (processPred relsForOs defaultSite oracle st p).mutatedWhere =
      replaceFirstClause p.rel p.field
        (effRootJoinField relCfg ++ "=\"__NO_MATCH__\"") st.mutatedWhere
    ∧ (processPred relsForOs defaultSite oracle st p).steps =
      (st.steps ++ [prefetchStepFor p (effRelatedOs relCfg)
          (relWhereFor p (effRelatedSiteField relCfg) defaultSite) (effSelect relCfg)
          (effRootJoinField relCfg) (effRelatedKeyField relCfg) (effMaxKeys relCfg)])
        ++ [{ kind := "prefetch_result", relationship := p.rel,
              keysReturned := (prefetchKeysPure members (effRelatedKeyField relCfg)).length,
              keysUsed := (usedKeys members relCfg).length }]
        ++ [{ kind := "rewrite", relationship := p.rel,
              replacedWith := effRootJoinField relCfg ++ "=\"__NO_MATCH__\"",
              note := "no related matches" }] := by
  unfold processPred
  rw [hc]
  by_cases ht : (prefetchKeysPure members (effRelatedKeyField relCfg)).length >
      (usedKeys members relCfg).length
  · simp only [h1, h2, h3, Bool.or_self, Bool.or_false, Bool.false_or, Bool.false_eq_true,
      if_false, ho, hem, if_pos ht]
    exact ⟨rfl, rfl⟩
  · simp only [h1, h2, h3, Bool.or_self, Bool.or_false, Bool.false_or, Bool.false_eq_true,
      if_false, ho, hem, if_neg ht]
    exact ⟨rfl, rfl⟩

theorem dropWhile_head_not (p : Char → Bool) :
    ∀ (l : List Char) (c : Char) (t : List Char), l.dropWhile p = c :: t → p c = false := by
  intro l
  induction l with
  | nil => intro c t h; simp [List.dropWhile] at h
  | cons x xs ih =>
    intro c t h
    rw [List.dropWhile_cons] at h
    by_cases hx : p x
    · rw [if_pos hx] at h
      exact ih c t h
    · rw [if_neg hx] at h
      cases h
      simpa using hx

theorem dropWhile_dropWhile (p : Char → Bool) (l : List Char) :
    (l.dropWhile p).dropWhile p = l.dropWhile p := by
  cases hd : l.dropWhile p with
  | nil => rfl
  | cons c t =>
    rw [List.dropWhile_cons, if_neg (by simp [dropWhile_head_not p l c t hd])]

theorem jsTrimChars_idem (l : List Char) : jsTrimChars (jsTrimChars l) = jsTrimChars l := by
  unfold jsTrimChars
  set a := l.dropWhile isJsSpace with ha
  set r := ((a.reverse.dropWhile isJsSpace).reverse : List Char) with hr
  have hpre : r <+: a := by
    rw [hr]
    have hsuf : a.reverse.dropWhile isJsSpace <:+ a.reverse := List.dropWhile_suffix _
    have := List.reverse_prefix.mpr (by simpa using hsuf)
    simpa using this
  have hdropr : r.dropWhile isJsSpace = r := by
    cases hrc : r with
    | nil => rfl
    | cons c t =>
      obtain ⟨u, hu⟩ := hpre
      rw [hrc] at hu
      have : a.dropWhile isJsSpace = a := by
        rw [ha, dropWhile_dropWhile]
      have hc : isJsSpace c = false := by
        apply dropWhile_head_not isJsSpace a c (t ++ u)
        rw [this, ← hu]
        simp
      rw [List.dropWhile_cons, if_neg (by simp [hc])]
  rw [hdropr, hr]
  rw [List.reverse_reverse, dropWhile_dropWhile]

theorem jsTrim_idem (s : String) : jsTrim (jsTrim s) = jsTrim s := by
  unfold jsTrim
  rw [show (String.mk (jsTrimChars s.data)).data = jsTrimChars s.data from rfl, jsTrimChars_idem]

/-- C1 counterexample: the claim says a later layer that does not define a
relation alias leaves the earlier layer's entry in the merged result.  With
a tenant layer defining only `mxapiwo.asset`, the built-in
`mxapiwo.location` entry disappears from the merge, although the built-in
layer defines it — the claim is false at this input. -/
theorem C1_counterexample :
    ((lookupA (loadRelationshipsConfig none (some c1TenantLayer)) "mxapiwo").bind
      (fun m => lookupA m "location") = none)
    ∧ (((lookupA builtInRelationships "mxapiwo").bind (fun m => lookupA m "location")).isSome
        = true) := ⟨rfl, rfl⟩

/-- C1 (amended): the three configuration layers are merged at the ROOT
RESOURCE granularity, not the relation-alias granularity: for every root
resource, the merged view of its relation map is the tenant layer's entry
when present, else the tenant-agnostic defaults layer's entry when present,
else the built-in entry; a later layer that defines a root resource
replaces that resource's entire relation-alias mapping. -/
theorem C1_merge_root_granularity (d t : Option Rels) (r : String) :
    lookupA (loadRelationshipsConfig d t) r =
      Option.orElse (t.bind (fun m => lookupA m r))
        (fun _ => Option.orElse (d.bind (fun m => lookupA m r))
          (fun _ => lookupA builtInRelationships r)) := by
  cases d <;> cases t <;>
    simp only [loadRelationshipsConfig, lookupA_mergeObj, Option.none_bind, Option.some_bind,
      orElse_none_left]

/-- C2 counterexample: the claim says a prefetch failure is recorded as an
`error` step in the plan's ordered step list.  On a run whose single
configured predicate's transport call throws, the failure is recorded in
`plan.errors` and the step list holds only the announced `prefetch` step —
no step of kind `error` exists, so the claim is false at this input.  (The
predicate's clause is also left textually unchanged and the call returns a
plan.) -/
theorem C2_counterexample :
    c2Run.plan.errors = [{ relationship := "asset", message := "boom" }]
    ∧ c2Run.plan.steps.map Step.kind = ["prefetch"]
    ∧ lookupA c2Run.params "oslc.where" = some "asset.assettype=\"SENSOR\"" := ⟨rfl, rfl, rfl⟩

/-- C2 (amended): for every predicate whose prefetch resolution throws, the
planner catches the failure per-predicate, records it as an entry of the
plan's ERRORS LIST (the step list gains only the announced `prefetch`
step, never an `error` step), leaves that predicate's clause textually
unchanged in the evolving filter (the loop state's `mutatedWhere`,
`truncated` and prior steps are untouched apart from the appended
prefetch step), continues with the remaining predicates, and the overall
call still returns a plan (the embedded planner is a total function). -/
theorem C2_error_in_errors_list (relsForOs : Option RelMap) (defaultSite : String)
    (oracle : Nat → Except String (List Member)) (st : LoopState) (p : RelPred)
    (relCfg : RelCfg) (msg : String)
    (hc : relsForOs.bind (fun m => lookupA m p.rel) = some relCfg)
    (h1 : (effRelatedOs relCfg == "") = false)
    (h2 : (effRootJoinField relCfg == "") = false)
    (h3 : (effRelatedKeyField relCfg == "") = false)
    (he : oracle st.callIdx = Except.error msg) :
    processPred relsForOs defaultSite oracle st p =
      { st with mode := "prefetch",
                steps := st.steps ++ [prefetchStepFor p (effRelatedOs relCfg)
                  (relWhereFor p (effRelatedSiteField relCfg) defaultSite) (effSelect relCfg)
                  (effRootJoinField relCfg) (effRelatedKeyField relCfg) (effMaxKeys relCfg)],
                errors := st.errors ++ [{ relationship := p.rel, message := msg }],
                callIdx := st.callIdx + 1 }
    ∧ ∀ rest : List RelPred,
        List.foldl (processPred relsForOs defaultSite oracle) st (p :: rest) =
          List.foldl (processPred relsForOs defaultSite oracle)
            (processPred relsForOs defaultSite oracle st p) rest :=
  ⟨processPred_err_eq relsForOs defaultSite oracle st p relCfg msg hc h1 h2 h3 he,
   fun _ => rfl⟩

/-- C5 code bug: the claim (and the spec) says a dotted-relation predicate
with no configuration entry passes through textually unchanged, and the
code's own comment says the replacement targets "ONLY this clause
occurrence".  On the failing input the unconfigured `vendor` clause's
literal embeds an `asset.q` pattern; the configured `asset` predicate's
replacement regex matches that embedded text first, so the `vendor` clause
is textually rewritten (while, per the claim, no plan step is recorded for
`vendor`). -/
theorem C5_code_bug :
    (detectRelationshipPredicates "vendor.y=\"asset.q='h'\" and asset.q=\"z\"").map RelPred.rel
      = ["vendor", "asset"]
    ∧ (lookupA builtInRelationships "mxapiwo").bind (fun m => lookupA m "vendor") = none
    ∧ c5Run.plan.steps.all (fun s => s.relationship != "vendor") = true
    ∧ lookupA c5Run.params "oslc.where"
        = some "vendor.y=\"(assetnum=\"K\")\" and asset.q=\"z\"" := ⟨rfl, rfl, rfl, rfl⟩

/-- C9 code bug: the claim (and the spec's round-trip property) says a
filter whose relation was successfully resolved re-detects to no dotted
predicates for that relation.  On the failing input the `asset` relation
resolves successfully and a rewrite step is recorded, but the replacement
regex consumed an embedded pattern inside another clause's literal, so the
real `asset.n="w"` clause survives and the detector still returns an
`asset` predicate on the output filter. -/
theorem C9_code_bug :
    (c9Run.plan.steps.filter
        (fun s => (s.kind == "rewrite") && (s.relationship == "asset"))).length = 1
    ∧ c9Run.plan.errors = []
    ∧ (detectRelationshipPredicates ((lookupA c9Run.params "oslc.where").getD "")).filter
        (fun q => q.rel == "asset")
      = [{ rel := "asset", field := "n", op := "=", value := "w" }] := ⟨rfl, rfl, by decide⟩

/-- C10 counterexample: the claim says every extracted key is non-empty
because falsy member values are dropped.  A whitespace-only member value
is truthy, survives `filter(Boolean)`, and trims to the empty string, so
the key list contains `""` and the rewritten disjunction contains the
clause `assetnum=""` — the claim is false at this input. -/
theorem C10_counterexample :
    prefetchKeysPure [[("assetnum", JVal.str " ")]] "assetnum" = [""]
    ∧ buildOrBlock "assetnum" (prefetchKeysPure [[("assetnum", JVal.str " ")]] "assetnum")
      = "(assetnum=\"\")" := ⟨rfl, rfl⟩

theorem effMaxKeys_pos (c : RelCfg) : 1 ≤ effMaxKeys c := by
  unfold effMaxKeys
  split <;> omega

theorem usedKeys_eq_take (members : List Member) (c : RelCfg) :
    usedKeys members c = (prefetchKeysPure members (effRelatedKeyField c)).take (effMaxKeys c) := by
  unfold usedKeys
  have h0 : Nat.max 0 (effMaxKeys c) = effMaxKeys c := by simp
  rw [h0]

theorem noDollar_append (a b : String) : noDollar (a ++ b) = (noDollar a && noDollar b) := by
  unfold noDollar
  rw [String.data_append, List.all_append]

theorem escapeWhereChars_all_ne_dollar (l : List Char)
    (h : l.all (fun c => c != '$') = true) :
    (escapeWhereChars l).all (fun c => c != '$') = true := by
  induction l with
  | nil => rfl
  | cons c rest ih =>
    rw [List.all_cons, Bool.and_eq_true] at h
    unfold escapeWhereChars
    by_cases hc : c = '"'
    · rw [if_pos hc]
      simp [List.all_cons, ih h.2]
    · rw [if_neg hc]
      simp [List.all_cons, h.1, ih h.2]

theorem noDollar_escape (v : String) (h : noDollar v = true) :
    noDollar (escapeWhereString v) = true := by
  show (escapeWhereChars v.data).all (fun c => c != '$') = true
  exact escapeWhereChars_all_ne_dollar v.data h

theorem noDollar_intercalate_go (sep : String) (hsep : noDollar sep = true) :
    ∀ (l : List String) (acc : String), noDollar acc = true →
      (∀ x ∈ l, noDollar x = true) →
      noDollar (String.intercalate.go acc sep l) = true := by
  intro l
  induction l with
  | nil => intro acc hacc _; exact hacc
  | cons a as ih =>
    intro acc hacc hl
    show noDollar (String.intercalate.go (acc ++ sep ++ a) sep as) = true
    have hacc2 : noDollar (acc ++ sep ++ a) = true := by
      rw [noDollar_append, noDollar_append, hacc, hsep, hl a (List.mem_cons_self a as)]
      rfl
    exact ih (acc ++ sep ++ a) hacc2 (fun x hx => hl x (List.mem_cons_of_mem a hx))

theorem noDollar_intercalate (sep : String) (l : List String) (hsep : noDollar sep = true)
    (hl : ∀ x ∈ l, noDollar x = true) : noDollar (String.intercalate sep l) = true := by
  cases l with
  | nil => rfl
  | cons a as =>
    show noDollar (String.intercalate.go a sep as) = true
    exact noDollar_intercalate_go sep hsep as a (hl a (List.mem_cons_self a as))
      (fun x hx => hl x (List.mem_cons_of_mem a hx))

theorem buildOrBlock_no_dollar (f : String) (keys : List String)
    (hf : noDollar f = true) (hk : ∀ k ∈ keys, noDollar k = true) :
    ((buildOrBlock f keys).data.all (fun c => c != '$')) = true := by
  have h1 : ∀ x ∈ keys.map (fun k => f ++ "=\"" ++ escapeWhereString k ++ "\""),
      noDollar x = true := by
    intro x hx
    obtain ⟨k, hkm, hxe⟩ := List.mem_map.mp hx
    rw [← hxe, noDollar_append, noDollar_append, noDollar_append, hf,
      noDollar_escape k (hk k hkm)]
    rfl
  have h2 : noDollar (String.intercalate " or "
      (keys.map (fun k => f ++ "=\"" ++ escapeWhereString k ++ "\""))) = true :=
    noDollar_intercalate " or " _ rfl h1
  show noDollar ("(" ++ String.intercalate " or "
    (keys.map (fun k => f ++ "=\"" ++ escapeWhereString k ++ "\"")) ++ ")") = true
  rw [noDollar_append, noDollar_append, h2]
  rfl

/-- C3 (amended): for every predicate with a configured relation whose
resolver returns a non-empty key list in which no key — nor the root
join field — contains a dollar character, the clause is replaced by the
parenthesized disjunction `buildOrBlock` over the used keys — exactly
the first `maxKeys` resolved keys in returned order, each rendered as an
equality on the root join field with the escaped key.  When k ≤ maxKeys
the used keys are all k resolved keys and the truncated flag keeps its
prior value; when k > maxKeys exactly maxKeys clauses are built and the
truncated flag is set.  (A key containing `$` falls to the JS
replacement-string interpretation and the inserted value can differ from
the resolved key — see the counterexample.) -/
theorem C3_disjunction_shape (relsForOs : Option RelMap) (defaultSite : String)
    (oracle : Nat → Except String (List Member)) (st : LoopState) (p : RelPred)
    (relCfg : RelCfg) (members : List Member) (fm : FoundMatch)
    (hc : relsForOs.bind (fun m => lookupA m p.rel) = some relCfg)
    (h1 : (effRelatedOs relCfg == "") = false)
    (h2 : (effRootJoinField relCfg == "") = false)
    (h3 : (effRelatedKeyField relCfg == "") = false)
    (ho : oracle st.callIdx = Except.ok members)
    (hk : prefetchKeysPure members (effRelatedKeyField relCfg) ≠ [])
    (hf : findClause p.rel.data p.field.data st.mutatedWhere.data = some fm)
    (hfd : noDollar (effRootJoinField relCfg) = true)
    (hkd : ∀ k ∈ prefetchKeysPure members (effRelatedKeyField relCfg),
        noDollar k = true) :
    (processPred relsForOs defaultSite oracle st p).mutatedWhere =
      String.mk (fm.before ++ (buildOrBlock (effRootJoinField relCfg)
        (usedKeys members relCfg)).data ++ fm.rest)
    ∧ buildOrBlock (effRootJoinField relCfg) (usedKeys members relCfg) =
      "(" ++ String.intercalate " or " ((usedKeys members relCfg).map
        (fun k => effRootJoinField relCfg ++ "=\"" ++ escapeWhereString k ++ "\"")) ++ ")"
    ∧ ((prefetchKeysPure members (effRelatedKeyField relCfg)).length ≤ effMaxKeys relCfg →
        usedKeys members relCfg = prefetchKeysPure members (effRelatedKeyField relCfg)
        ∧ (processPred relsForOs defaultSite oracle st p).truncated = st.truncated)
    ∧ (effMaxKeys relCfg < (prefetchKeysPure members (effRelatedKeyField relCfg)).length →
        (usedKeys members relCfg).length = effMaxKeys relCfg
        ∧ (processPred relsForOs defaultSite oracle st p).truncated = true) := by
  have hd : ((buildOrBlock (effRootJoinField relCfg) (usedKeys members relCfg)).data.all
      (fun c => c != '$')) = true := by
    refine buildOrBlock_no_dollar _ _ hfd (fun k hk2 => hkd k ?_)
    rw [usedKeys_eq_take] at hk2
    exact List.take_subset _ _ hk2
  have hne : (usedKeys members relCfg).isEmpty = false := by
    rw [usedKeys_eq_take]
    cases hks : prefetchKeysPure members (effRelatedKeyField relCfg) with
    | nil => exact absurd hks hk
    | cons x xs =>
      have := effMaxKeys_pos relCfg
      cases hm : effMaxKeys relCfg with
      | zero => omega
      | succ n => rfl
  obtain ⟨hw, htr, _⟩ := processPred_ok_nonempty_spec relsForOs defaultSite oracle st p relCfg
    members hc h1 h2 h3 ho hne
  have hlen : (usedKeys members relCfg).length =
      Nat.min (effMaxKeys relCfg) (prefetchKeysPure members (effRelatedKeyField relCfg)).length := by
    rw [usedKeys_eq_take, List.length_take]
  refine ⟨?_, rfl, ?_, ?_⟩
  · rw [hw, replaceFirstClause_of_found p.rel p.field _ st.mutatedWhere fm hf hd]
  · intro hle
    have hukeq : usedKeys members relCfg = prefetchKeysPure members (effRelatedKeyField relCfg) := by
      rw [usedKeys_eq_take]
      exact List.take_of_length_le hle
    refine ⟨hukeq, ?_⟩
    rw [htr, hukeq, if_neg (by omega)]
  · intro hlt
    have hul : (usedKeys members relCfg).length = effMaxKeys relCfg := by
      rw [hlen]; exact Nat.min_eq_left (Nat.le_of_lt hlt)
    refine ⟨hul, ?_⟩
    rw [htr, hul, if_pos (by omega)]

/-- C3 counterexample: the claim says each value of the rewritten
disjunction matches one resolved key.  For the resolved key `$$` the
disjunction `buildOrBlock` is `(assetnum="$$")`, but
`String.prototype.replace` interprets `$$` in its replacement string as
a single `$`, so the rewritten filter is `(assetnum="$")` — the clause
value no longer matches the resolved key, and the claimed disjunction
appears nowhere in the output.  The claim is false at this input (one
key, k = 1 ≤ maxKeys = 2). -/
theorem C3_counterexample :
    prefetchKeysPure [[("assetnum", JVal.str "$$")]] "assetnum" = ["$$"]
    ∧ buildOrBlock "assetnum" ["$$"] = "(assetnum=\"$$\")"
    ∧ (processPred (some [("asset", wAssetCfg)]) ""
        (fun _ => Except.ok [[("assetnum", JVal.str "$$")]]) wSt wP).mutatedWhere
      = "(assetnum=\"$\")"
    ∧ ¬ List.IsInfix (buildOrBlock "assetnum" ["$$"]).data
        ((processPred (some [("asset", wAssetCfg)]) ""
          (fun _ => Except.ok [[("assetnum", JVal.str "$$")]]) wSt wP).mutatedWhere).data :=
  ⟨rfl, rfl, rfl, by decide⟩

/-- C4: for every predicate with a configured relation whose resolver
returns an empty key list, the rewriter replaces that predicate's clause
with the always-false sentinel `<rootJoinField>="__NO_MATCH__"` on the
root join field, and records a rewrite step noting "no related
matches". -/
theorem C4_empty_sentinel (relsForOs : Option RelMap) (defaultSite : String)
    (oracle : Nat → Except String (List Member)) (st : LoopState) (p : RelPred)
    (relCfg : RelCfg) (members : List Member) (fm : FoundMatch)
    (hc : relsForOs.bind (fun m => lookupA m p.rel) = some relCfg)
    (h1 : (effRelatedOs relCfg == "") = false)
    (h2 : (effRootJoinField relCfg == "") = false)
    (h3 : (effRelatedKeyField relCfg == "") = false)
    (ho : oracle st.callIdx = Except.ok members)
    (hk0 : prefetchKeysPure members (effRelatedKeyField relCfg) = [])
    (hf : findClause p.rel.data p.field.data st.mutatedWhere.data = some fm)
    (hd : ((effRootJoinField relCfg ++ "=\"__NO_MATCH__\"").data.all
        (fun c => c != '$')) = true) :
    (processPred relsForOs defaultSite oracle st p).mutatedWhere =
      String.mk (fm.before ++ (effRootJoinField relCfg ++ "=\"__NO_MATCH__\"").data ++ fm.rest)
    ∧ (processPred relsForOs defaultSite oracle st p).steps.getLast? =
      some { kind := "rewrite", relationship := p.rel,
             replacedWith := effRootJoinField relCfg ++ "=\"__NO_MATCH__\"",
             note := "no related matches" } := by
  have hem : (usedKeys members relCfg).isEmpty = true := by
    rw [usedKeys_eq_take, hk0, List.take_nil]
    rfl
  obtain ⟨hw, hsteps⟩ := processPred_ok_empty_spec relsForOs defaultSite oracle st p relCfg
    members hc h1 h2 h3 ho hem
  constructor
  · rw [hw, replaceFirstClause_of_found p.rel p.field _ st.mutatedWhere fm hf hd]
  · rw [hsteps, List.getLast?_concat]

/-- C6: the planner's only effect on the caller's parameter bag is the
final conditional write of the `oslc.where` entry: every key other than
`oslc.where` reads the same after the call as before, and the resulting
bag is either exactly the input bag or the input bag with a single
`oslc.where` assignment of the final filter string. -/
theorem C6_params_frame (os : String) (params : List (String × String)) (defaultSite : String)
    (d t : Option Rels) (oracle : Nat → Except String (List Member)) (k : String)
    (hk : k ≠ "oslc.where") :
    lookupA (applyRelationshipPrefetch os params defaultSite d t oracle).params k
      = lookupA params k
    ∧ ((applyRelationshipPrefetch os params defaultSite d t oracle).params = params
       ∨ ∃ v, (applyRelationshipPrefetch os params defaultSite d t oracle).params
           = setA params "oslc.where" v) := by
  unfold applyRelationshipPrefetch
  by_cases hw : ((lookupA params "oslc.where").getD "" = "")
  · simp only [if_pos hw]
    exact ⟨trivial, Or.inl trivial⟩
  · simp only [if_neg hw]
    by_cases hp : (detectRelationshipPredicates ((lookupA params "oslc.where").getD "")).isEmpty
    · simp only [hp, if_true]
      exact ⟨trivial, Or.inl trivial⟩
    · simp only [hp, Bool.false_eq_true, if_false]
      by_cases hm : ((List.foldl (processPred ((lookupA (loadRelationshipsConfig d t)
            (jsToLower os)).orElse (fun _ => lookupA (loadRelationshipsConfig d t) os))
            defaultSite oracle)
          { mutatedWhere := (lookupA params "oslc.where").getD "", mode := "none", steps := [],
            truncated := false, errors := [], callIdx := 0 }
          (detectRelationshipPredicates ((lookupA params "oslc.where").getD ""))).mutatedWhere
          ≠ (lookupA params "oslc.where").getD "")
      · simp only [if_pos hm]
        exact ⟨lookupA_setA_ne params "oslc.where" _ k hk, Or.inr ⟨_, rfl⟩⟩
      · simp only [if_neg hm]
        exact ⟨trivial, Or.inl trivial⟩

/-- C7: when the caller supplies a default site, a related site field is
configured, and the best-effort textual `siteid` guard does not fire on
the predicate's own clause, the related-resource query filter is exactly
the configured site field compared equal to the escaped default site,
conjoined with `and` before the predicate's `<field> <op> "<escaped
literal>"` clause. -/
theorem C7_site_scoping (p : RelPred) (relatedSiteField defaultSite : String)
    (h1 : (defaultSite != "") = true) (h2 : (relatedSiteField != "") = true)
    (h3 : siteidRegexTest (relWhereBase p) = false) :
    relWhereFor p relatedSiteField defaultSite =
      relatedSiteField ++ "=\"" ++ escapeWhereString defaultSite ++ "\" and "
        ++ (p.field ++ " " ++ opOf p ++ " \"" ++ escapeWhereString p.value ++ "\"") := by
  simp only [relWhereFor, h1, h2, h3, Bool.not_false, Bool.and_self, Bool.true_and,
    Bool.and_true, if_true]
  rw [relWhereBase]

/-- C8: in the output of `escapeWhereString` every double-quote character
is immediately preceded by a backslash (for any surrounding context
character), so an embedded quote in a predicate literal or resolved key is
escaped rather than terminating the quoted literal built by the resolver
filter and `buildOrBlock`. -/
theorem C8_escaping (v : String) (prev : Option Char) :
    quoteEscapedOk prev (escapeWhereString v).data = true := by
  have h : ∀ (l : List Char) (pr : Option Char), quoteEscapedOk pr (escapeWhereChars l) = true := by
    intro l
    induction l with
    | nil => intro pr; rfl
    | cons c rest ih =>
      intro pr
      by_cases hc : c = '"'
      · subst hc
        unfold escapeWhereChars
        rw [if_pos rfl]
        simp [quoteEscapedOk, ih]
      · unfold escapeWhereChars
        rw [if_neg hc]
        simp [quoteEscapedOk, hc, ih]
  exact h v.data prev

/-- C10 (amended): every key the resolver extracts is a whitespace-trimmed
string obtained from a truthy member value (falsy member values — missing
field, empty string, null, zero, false — are dropped before truncation);
keys are non-empty provided no truthy member value is whitespace-only,
but a whitespace-only value yields the empty key (see the
counterexample). -/
theorem C10_keys_trimmed (members : List Member) (f : String)
    (hnz : ∀ v ∈ (members.map (fun it => getField it f)).filter JVal.truthy,
        jsTrim v.toStr ≠ "") :
    (∀ k ∈ prefetchKeysPure members f, jsTrim k = k)
    ∧ (∀ k ∈ prefetchKeysPure members f, ∃ v,
        JVal.truthy v = true ∧ k = jsTrim v.toStr
        ∧ v ∈ members.map (fun it => getField it f))
    ∧ (∀ k ∈ prefetchKeysPure members f, k ≠ "") := by
  refine ⟨?_, ?_, ?_⟩
  · intro k hk
    unfold prefetchKeysPure at hk
    obtain ⟨v, _, hveq⟩ := List.mem_map.mp hk
    rw [← hveq]
    exact jsTrim_idem _
  · intro k hk
    unfold prefetchKeysPure at hk
    obtain ⟨v, hv, hveq⟩ := List.mem_map.mp hk
    exact ⟨v, (List.mem_filter.mp hv).2, hveq.symm, (List.mem_filter.mp hv).1⟩
  · intro k hk
    unfold prefetchKeysPure at hk
    obtain ⟨v, hv, hveq⟩ := List.mem_map.mp hk
    rw [← hveq]
    exact hnz v hv

/-- Witness for C2's amended theorem at a concrete input. -/
theorem C2_error_in_errors_list_witness :
    processPred (some [("asset", wAssetCfg)]) "" (fun _ => Except.error "boom") wSt wP =
      { wSt with mode := "prefetch",
                 steps := wSt.steps ++ [prefetchStepFor wP (effRelatedOs wAssetCfg)
                   (relWhereFor wP (effRelatedSiteField wAssetCfg) "") (effSelect wAssetCfg)
                   (effRootJoinField wAssetCfg) (effRelatedKeyField wAssetCfg)
                   (effMaxKeys wAssetCfg)],
                 errors := wSt.errors ++ [{ relationship := wP.rel, message := "boom" }],
                 callIdx := wSt.callIdx + 1 } :=
  (C2_error_in_errors_list (some [("asset", wAssetCfg)]) "" (fun _ => Except.error "boom")
    wSt wP wAssetCfg "boom" rfl rfl rfl rfl rfl).1

/-- Witness for C3 at a concrete input: two resolved keys, maxKeys 2. -/
theorem C3_disjunction_shape_witness :
    (processPred (some [("asset", wAssetCfg)]) ""
        (fun _ => Except.ok [[("assetnum", JVal.str "A100")], [("assetnum", JVal.str "A101")]])
        wSt wP).mutatedWhere
      = "(assetnum=\"A100\" or assetnum=\"A101\")"
    ∧ (processPred (some [("asset", wAssetCfg)]) ""
        (fun _ => Except.ok [[("assetnum", JVal.str "A100")], [("assetnum", JVal.str "A101")]])
        wSt wP).truncated = false :=
  ⟨(C3_disjunction_shape (some [("asset", wAssetCfg)]) ""
      (fun _ => Except.ok [[("assetnum", JVal.str "A100")], [("assetnum", JVal.str "A101")]])
      wSt wP wAssetCfg [[("assetnum", JVal.str "A100")], [("assetnum", JVal.str "A101")]] wFm
      rfl rfl rfl rfl rfl (by decide) rfl rfl (by decide)).1,
   ((C3_disjunction_shape (some [("asset", wAssetCfg)]) ""
      (fun _ => Except.ok [[("assetnum", JVal.str "A100")], [("assetnum", JVal.str "A101")]])
      wSt wP wAssetCfg [[("assetnum", JVal.str "A100")], [("assetnum", JVal.str "A101")]] wFm
      rfl rfl rfl rfl rfl (by decide) rfl rfl (by decide)).2.2.1 (by decide)).2⟩

/-- Witness for C4 at a concrete input: resolver returns no members. -/
theorem C4_empty_sentinel_witness :
    (processPred (some [("asset", wAssetCfg)]) "" (fun _ => Except.ok []) wSt wP).mutatedWhere
      = "assetnum=\"__NO_MATCH__\"" :=
  (C4_empty_sentinel (some [("asset", wAssetCfg)]) "" (fun _ => Except.ok []) wSt wP
    wAssetCfg [] wFm rfl rfl rfl rfl rfl rfl rfl (by decide)).1

/-- Witness for C6 at a concrete input: the `lean` parameter is untouched. -/
theorem C6_params_frame_witness :
    lookupA (applyRelationshipPrefetch "mxapiwo"
        [("oslc.where", "asset.assettype=\"SENSOR\""), ("lean", "1")] "" none none
        (fun _ => Except.ok [[("assetnum", JVal.str "A100")]])).params "lean"
      = lookupA [("oslc.where", "asset.assettype=\"SENSOR\""), ("lean", "1")] "lean" :=
  (C6_params_frame "mxapiwo" [("oslc.where", "asset.assettype=\"SENSOR\""), ("lean", "1")]
    "" none none (fun _ => Except.ok [[("assetnum", JVal.str "A100")]]) "lean" (by decide)).1

/-- Witness for C7 at a concrete input. -/
theorem C7_site_scoping_witness :
    relWhereFor wP "siteid" "BEDFORD" = "siteid=\"BEDFORD\" and assettype = \"SENSOR\"" :=
  C7_site_scoping wP "siteid" "BEDFORD" rfl rfl rfl

/-- Witness for C10's amended theorem at a concrete input. -/
theorem C10_keys_trimmed_witness :
    jsTrim "A1" = "A1"
    ∧ prefetchKeysPure [[("assetnum", JVal.str " A1 ")]] "assetnum" = ["A1"] :=
  ⟨(C10_keys_trimmed [[("assetnum", JVal.str " A1 ")]] "assetnum" (by decide)).1 "A1"
      (by decide), rfl⟩
